import Mathlib

/-!
Verification development for the wojtess/azalea Minecraft client core.

This file shallowly embeds the parts of the repository that the checked
properties are about:

* `src/azalea-world/src/palette.rs` — the paletted volumetric container
  (`PalettedContainer`, `Palette`, `PaletteType`) and its resize machinery;
* `src/azalea-protocol/src/connect.rs` — the state-typed connection and its
  transitions, compression threshold and encryption key setters;
* `src/azalea-protocol/src/packets/game/clientbound_player_chat_packet.rs` —
  the `ChatType` enum and its wire decoding.

The `BitStorage` type and the `azalea-buf` byte codecs are used by the
sources above but their code is not part of the provided sources; they are
modelled from the specification (sections 4.1, 4.8 and the wire-format
paragraph of 4.9), as indicated by doc comments starting with
`Modelled from the spec:`.

Rust `u8`/`u32`/`u64`/`usize` values are embedded as `Nat` (all arithmetic
in the embedded code stays far below any overflow boundary except where
explicit masking is written into the model).  A Rust `panic!` or index
out of bounds is embedded as `Option.none`; fallible reads return
`Option` as well.  Functions which can recurse forever in the source
(`id_for` / `on_resize` / `copy_from` are mutually recursive through
iteration) take an explicit fuel argument; exhausting the fuel yields
`none`, and genuine non-termination of the source corresponds to the
fueled embedding returning `none` for every fuel.
-/

set_option maxRecDepth 100000
set_option maxHeartbeats 4000000

namespace Azalea

/-! ## Byte-stream primitives

Modelled from the spec, section 4.1 and 6: the `azalea-buf` crate
(`read_byte`, `u32::var_read_from`, `Vec::read_from`, `u64::read_from`) is
not among the provided sources.  A byte stream is a `List Nat` of values
below 256; readers return the parsed value and the remaining bytes, or
`none` on failure. -/

/-- Modelled from the spec: read one raw byte (`Readable::read_byte`);
fails with UnexpectedEof on an empty stream. -/
def readByte : List Nat → Option (Nat × List Nat)
  | [] => none
  | b :: rest => some (b, rest)

/-- Modelled from the spec, section 4.1: the varint reading loop.  The first
argument is the number of bytes that may still be consumed; each byte
carries 7 payload bits little-endian, the top bit marks continuation.
Fails (MalformedVarInt) when the byte budget is exhausted without a
terminator and (UnexpectedEof) on stream end. -/
def readVarLoop : Nat → Nat → Nat → List Nat → Option (Nat × List Nat)
  | 0, _, _, _ => none
  | _ + 1, _, _, [] => none
  | remaining + 1, shift, acc, b :: rest =>
    let acc' := acc ||| ((b &&& 127) <<< shift)
    if b &&& 128 = 0 then some (acc', rest)
    else readVarLoop remaining (shift + 7) acc' rest

/-- Modelled from the spec, section 4.1: `u32::var_read_from`, at most 5
bytes. -/
def readVarU32 (bs : List Nat) : Option (Nat × List Nat) :=
  readVarLoop 5 0 0 bs

/-- Modelled from the spec, section 6: a fixed-width big-endian `u64`
(8 raw bytes, most significant first). -/
def readU64 : List Nat → Option (Nat × List Nat)
  | b0 :: b1 :: b2 :: b3 :: b4 :: b5 :: b6 :: b7 :: rest =>
    some ((((((((b0 <<< 8 ||| b1) <<< 8 ||| b2) <<< 8 ||| b3) <<< 8 ||| b4)
      <<< 8 ||| b5) <<< 8 ||| b6) <<< 8 ||| b7), rest)
  | _ => none

/-- Modelled from the spec: read `n` consecutive items with the given
reader. -/
def readItems {α : Type} (rd : List Nat → Option (α × List Nat)) :
    Nat → List Nat → Option (List α × List Nat)
  | 0, bs => some ([], bs)
  | n + 1, bs =>
    (rd bs).bind fun p =>
      (readItems rd n p.2).map fun q => (p.1 :: q.1, q.2)

/-- Modelled from the spec, sections 4.3 and 6: `Vec<T>::read_from` — a
VarInt length prefix followed by that many items. -/
def readVec {α : Type} (rd : List Nat → Option (α × List Nat))
    (bs : List Nat) : Option (List α × List Nat) :=
  (readVarU32 bs).bind fun p => readItems rd p.1 p.2

/-! ## BitStorage

Modelled from the spec, sections 3 and 4.8: the `BitStorage` type lives in
`azalea-world` but its source file is not among the provided sources.  A
logical array of `size` cells of `bitsPerEntry` bits each, packed into
64-bit words so that no cell straddles a word boundary:
`cellsPerWord = 64 / bitsPerEntry` whole cells per word and
`ceil (size / cellsPerWord)` words of data; `bitsPerEntry = 0` means all
reads yield 0 and the data is empty. -/

structure BitStorage where
  bitsPerEntry : Nat
  size : Nat
  data : List Nat
  deriving Repr, DecidableEq

/-- Number of whole cells per 64-bit word (only used for a positive
`bitsPerEntry`). -/
def cellsPerWord (bitsPerEntry : Nat) : Nat := 64 / bitsPerEntry

/-- Number of 64-bit words needed for `size` cells
(`ceil (size / cellsPerWord)`). -/
def wordsNeeded (bitsPerEntry size : Nat) : Nat :=
  (size + cellsPerWord bitsPerEntry - 1) / cellsPerWord bitsPerEntry

/-- Modelled from the spec, section 4.8: `BitStorage::new`.  With supplied
word data the length must match the required word count (otherwise the
constructor fails, which the call sites turn into a panic via `unwrap`);
without data the words are zero-initialized.  `bitsPerEntry = 0` requires
empty data. -/
def BitStorage.new (bitsPerEntry size : Nat) (data? : Option (List Nat)) :
    Option BitStorage :=
  if bitsPerEntry = 0 then
    match data? with
    | none => some ⟨0, size, []⟩
    | some d => if d = [] then some ⟨0, size, []⟩ else none
  else
    match data? with
    | none => some ⟨bitsPerEntry, size, List.replicate (wordsNeeded bitsPerEntry size) 0⟩
    | some d =>
      if d.length = wordsNeeded bitsPerEntry size then some ⟨bitsPerEntry, size, d⟩
      else none

/-- Modelled from the spec, section 4.8: extract the `bitsPerEntry`-bit cell
at index `i`; all reads yield 0 when `bitsPerEntry = 0`. -/
def BitStorage.get (st : BitStorage) (i : Nat) : Nat :=
  if st.bitsPerEntry = 0 then 0
  else
    let cpw := cellsPerWord st.bitsPerEntry
    (st.data.getD (i / cpw) 0 >>> ((i % cpw) * st.bitsPerEntry)) &&&
      (2 ^ st.bitsPerEntry - 1)

/-- Modelled from the spec, section 4.8: overwrite the cell at index `i`
with `v` (masked to `bitsPerEntry` bits).  On a zero-bit storage there is
nothing to write. -/
def BitStorage.set (st : BitStorage) (i v : Nat) : BitStorage :=
  if st.bitsPerEntry = 0 then st
  else
    let cpw := cellsPerWord st.bitsPerEntry
    let mask := 2 ^ st.bitsPerEntry - 1
    let off := (i % cpw) * st.bitsPerEntry
    let w := st.data.getD (i / cpw) 0
    { st with
      data := st.data.set (i / cpw)
        ((w &&& (2 ^ 64 - 1 - (mask <<< off))) ||| ((v &&& mask) <<< off)) }

/-- Modelled from the spec, section 4.8: `get_and_set` returns the old cell
value and writes the new one. -/
def BitStorage.getAndSet (st : BitStorage) (i v : Nat) : Nat × BitStorage :=
  (st.get i, st.set i v)

/-! ## Palette data model (from `src/azalea-world/src/palette.rs`) -/

/-- `PalettedContainerType` (palette.rs, lines 6-10). -/
inductive PalettedContainerType where
  | biomes
  | blockStates
  deriving Repr, DecidableEq

/-- `PalettedContainerType::size_bits` (palette.rs, lines 275-280). -/
def PalettedContainerType.sizeBits : PalettedContainerType → Nat
  | .blockStates => 4
  | .biomes => 2

/-- `PalettedContainerType::size` (palette.rs, lines 282-284):
`1 << size_bits() * 3`. -/
def PalettedContainerType.size (ct : PalettedContainerType) : Nat :=
  1 <<< (ct.sizeBits * 3)

/-- `PaletteType` (palette.rs, lines 180-186). -/
inductive PaletteType where
  | singleValue
  | linear
  | hashmap
  | global
  deriving Repr, DecidableEq

/-- `Palette` (palette.rs, lines 188-196). -/
inductive Palette where
  | singleValue (v : Nat)
  | linear (l : List Nat)
  | hashmap (l : List Nat)
  | global
  deriving Repr, DecidableEq

/-- `Palette::value_for` (palette.rs, lines 198-207).  The Linear and
Hashmap arms index the backing `Vec` directly (`v[id]`), which panics when
`id` is out of bounds; the panic is embedded as `none`. -/
def Palette.valueFor : Palette → Nat → Option Nat
  | .singleValue v, _ => some v
  | .linear l, id => l.get? id
  | .hashmap l, id => l.get? id
  | .global, id => some id

/-- `From<&Palette> for PaletteType` (palette.rs, lines 263-272). -/
def paletteTypeOf : Palette → PaletteType
  | .singleValue _ => .singleValue
  | .linear _ => .linear
  | .hashmap _ => .hashmap
  | .global => .global

/-- `PaletteType::from_bits_and_type` (palette.rs, lines 227-242). -/
def PaletteType.fromBitsAndType (bitsPerEntry : Nat)
    (containerType : PalettedContainerType) : PaletteType :=
  match containerType with
  | .blockStates =>
    if bitsPerEntry = 0 then .singleValue
    else if bitsPerEntry ≤ 4 then .linear
    else if bitsPerEntry ≤ 8 then .hashmap
    else .global
  | .biomes =>
    if bitsPerEntry = 0 then .singleValue
    else if bitsPerEntry ≤ 3 then .linear
    else .global

/-- `PaletteType::into_empty_palette` (palette.rs, lines 253-260). -/
def PaletteType.intoEmptyPalette : PaletteType → Palette
  | .singleValue => .singleValue 0
  | .linear => .linear []
  | .hashmap => .hashmap []
  | .global => .global

/-- `PaletteType::read` (palette.rs, lines 244-251): SingleValue reads one
VarInt, Linear and Hashmap read a VarInt-prefixed VarInt sequence, Global
reads nothing. -/
def PaletteType.read (pt : PaletteType) (bs : List Nat) :
    Option (Palette × List Nat) :=
  match pt with
  | .singleValue => (readVarU32 bs).map fun p => (.singleValue p.1, p.2)
  | .linear => (readVec readVarU32 bs).map fun p => (.linear p.1, p.2)
  | .hashmap => (readVec readVarU32 bs).map fun p => (.hashmap p.1, p.2)
  | .global => some (.global, bs)

/-- `PalettedContainer` (palette.rs, lines 12-19). -/
structure PalettedContainer where
  bitsPerEntry : Nat
  palette : Palette
  storage : BitStorage
  containerType : PalettedContainerType
  deriving Repr, DecidableEq

/-- `PalettedContainer::new` (palette.rs, lines 22-33): a fresh container is
SingleValue 0 with zero bits per entry and empty storage data.  The inner
`BitStorage::new(0, size, Some(vec![])).unwrap()` cannot fail. -/
def PalettedContainer.new (containerType : PalettedContainerType) :
    Option PalettedContainer :=
  (BitStorage.new 0 containerType.size (some [])).map fun storage =>
    ⟨0, .singleValue 0, storage, containerType⟩

/-- `PalettedContainer::get_index` (palette.rs, lines 59-63):
`((y << s | z) << s) | x` with `s = size_bits`. -/
def PalettedContainer.getIndex (c : PalettedContainer) (x y z : Nat) : Nat :=
  let s := c.containerType.sizeBits
  (((y <<< s) ||| z) <<< s) ||| x

/-- `PalettedContainer::get` (palette.rs, lines 65-69); the `value_for`
panic on an out-of-range palette index is embedded as `none`. -/
def PalettedContainer.get (c : PalettedContainer) (x y z : Nat) : Option Nat :=
  c.palette.valueFor (c.storage.get (c.getIndex x y z))

/-- `PalettedContainer::create_or_reuse_data` (palette.rs, lines 86-111).
When the palette type selected for the requested bit width equals the
current palette's type the container is returned unchanged (`self.clone()`,
keeping the current `bits_per_entry`, palette and storage); otherwise a
fresh zeroed storage of the requested width and an empty palette of the
selected type are built.  `BitStorage::new(bits, size, None).unwrap()`
cannot fail; the `unwrap` is embedded with `Option.getD`. -/
def createOrReuseData (c : PalettedContainer) (bitsPerEntry : Nat) :
    PalettedContainer :=
  let newPaletteType := PaletteType.fromBitsAndType bitsPerEntry c.containerType
  let oldPaletteType := paletteTypeOf c.palette
  if newPaletteType = oldPaletteType then c
  else
    { bitsPerEntry := bitsPerEntry
      palette := newPaletteType.intoEmptyPalette
      storage := (BitStorage.new bitsPerEntry c.containerType.size none).getD
        ⟨bitsPerEntry, c.containerType.size, []⟩
      containerType := c.containerType }

/-- The loop body of `PalettedContainer::copy_from` (palette.rs, lines
122-131): for each index `i` of the source storage, translate the source
cell through the source palette (`value_for`, panic embedded as `none`),
obtain its id in the target container (`id_for`, which may itself resize
the target) and write it into the target's storage.  `idf` is the fueled
`id_for` at the fuel available to the caller. -/
def copyLoop (idf : PalettedContainer → Nat → Option (Nat × PalettedContainer))
    (pal : Palette) (st : BitStorage) :
    PalettedContainer → List Nat → Option PalettedContainer
  | t, [] => some t
  | t, i :: rest =>
    (pal.valueFor (st.get i)).bind fun value =>
      (idf t value).bind fun r =>
        copyLoop idf pal st { r.2 with storage := r.2.storage.set i r.1 } rest

/-- `PalettedContainer::on_resize` (palette.rs, lines 113-120), abstracted
over the fueled `id_for` of the caller: build the new data via
`create_or_reuse_data`, copy every cell of the current storage into it,
install it (`*self = new_data`) and compute the id of the triggering value
in the installed container. -/
def onResizeF (idf : PalettedContainer → Nat → Option (Nat × PalettedContainer))
    (c : PalettedContainer) (bitsPerEntry value : Nat) :
    Option (Nat × PalettedContainer) :=
  (copyLoop idf c.palette c.storage (createOrReuseData c bitsPerEntry)
      (List.range c.storage.size)).bind fun d => idf d value

/-- `PalettedContainer::id_for` (palette.rs, lines 133-168), with fuel.
SingleValue resizes to one bit on a differing value; Linear returns an
existing position, pushes while `palette.len() < 2^bits_per_entry` and
resizes to `bits_per_entry + 1` when full; Hashmap returns an existing
position and otherwise always resizes to `bits_per_entry + 1`; Global is
the identity.  The source recursion `id_for → on_resize → copy_from/id_for`
can diverge; each step into `on_resize` consumes one unit of fuel and
exhausted fuel yields `none`. -/
def idFor : Nat → PalettedContainer → Nat → Option (Nat × PalettedContainer)
  | 0, _, _ => none
  | fuel + 1, c, value =>
    match c.palette with
    | .singleValue v =>
      if v ≠ value then onResizeF (idFor fuel) c 1 value
      else some (0, c)
    | .linear l =>
      match List.findIdx? (fun w => w == value) l with
      | some index => some (index, c)
      | none =>
        if 2 ^ c.bitsPerEntry > l.length then
          some (l.length, { c with palette := .linear (l ++ [value]) })
        else onResizeF (idFor fuel) c (c.bitsPerEntry + 1) value
    | .hashmap l =>
      match List.findIdx? (fun w => w == value) l with
      | some index => some (index, c)
      | none => onResizeF (idFor fuel) c (c.bitsPerEntry + 1) value
    | .global => some (value, c)

/-- `PalettedContainer::copy_from` (palette.rs, lines 122-131) at a given
fuel. -/
def copyFrom (fuel : Nat) (t : PalettedContainer) (pal : Palette)
    (st : BitStorage) : Option PalettedContainer :=
  copyLoop (idFor fuel) pal st t (List.range st.size)

/-- `PalettedContainer::on_resize` (palette.rs, lines 113-120) at a given
fuel. -/
def onResize (fuel : Nat) (c : PalettedContainer) (bitsPerEntry value : Nat) :
    Option (Nat × PalettedContainer) :=
  onResizeF (idFor fuel) c bitsPerEntry value

/-- `PalettedContainer::set` (palette.rs, lines 79-84): compute the palette
id of the value (possibly resizing) and write it at the cell for
`(x, y, z)`. -/
def PalettedContainer.set (fuel : Nat) (c : PalettedContainer)
    (x y z value : Nat) : Option PalettedContainer :=
  (idFor fuel c value).map fun r =>
    { r.2 with storage := r.2.storage.set (r.2.getIndex x y z) r.1 }

/-- `PalettedContainer::get_and_set` (palette.rs, lines 72-76): like `set`
but returning the previous id at the cell via `BitStorage::get_and_set`. -/
def PalettedContainer.getAndSet (fuel : Nat) (c : PalettedContainer)
    (x y z value : Nat) : Option (Nat × PalettedContainer) :=
  (idFor fuel c value).map fun r =>
    let p := r.2.storage.getAndSet (r.2.getIndex x y z) r.1
    (p.1, { r.2 with storage := p.2 })

/-- `PalettedContainer::read_with_type` (palette.rs, lines 35-57): one raw
byte of `bits_per_entry`, the palette of the type selected for it, then a
VarInt-prefixed vector of 64-bit words; `BitStorage::new(bpe, size,
Some(data)).unwrap()` panics (embedded as `none`) when the data length does
not match.  The stored palette indices are never validated against the
palette length. -/
def readWithType (bs : List Nat) (containerType : PalettedContainerType) :
    Option (PalettedContainer × List Nat) :=
  (readByte bs).bind fun b =>
    ((PaletteType.fromBitsAndType b.1 containerType).read b.2).bind fun p =>
      (readVec readU64 p.2).bind fun d =>
        (BitStorage.new b.1 containerType.size (some d.1)).map fun storage =>
          (⟨b.1, p.1, storage, containerType⟩, d.2)

/-! ## ChatType (from
`src/azalea-protocol/src/packets/game/clientbound_player_chat_packet.rs`) -/

/-- `ChatType` (clientbound_player_chat_packet.rs, lines 17-26). -/
inductive ChatType where
  | chat
  | sayCommand
  | msgCommandIncoming
  | msgCommandOutgoing
  | teamMsgCommandIncoming
  | teamMsgCommandOutgoing
  | emoteCommand
  deriving Repr, DecidableEq

/-- Modelled from the spec: `ChatType::read_from` is generated by the
`McBuf` derive, whose source is not among the provided sources.  It reads
one VarInt discriminant and selects the variant.  The behavior on an
out-of-range discriminant is pinned by the repository's own test
`test_chat_type` (clientbound_player_chat_packet.rs, lines 152-160), which
asserts that the byte `0x07` decodes successfully to `ChatType::Chat`:
unknown discriminants fall back to the first variant instead of failing. -/
def ChatType.readFrom (bs : List Nat) : Option (ChatType × List Nat) :=
  (readVarU32 bs).map fun p =>
    (match p.1 with
     | 0 => ChatType.chat
     | 1 => ChatType.sayCommand
     | 2 => ChatType.msgCommandIncoming
     | 3 => ChatType.msgCommandOutgoing
     | 4 => ChatType.teamMsgCommandIncoming
     | 5 => ChatType.teamMsgCommandOutgoing
     | 6 => ChatType.emoteCommand
     | _ => ChatType.chat, p.2)

/-! ## State-typed connection (from `src/azalea-protocol/src/connect.rs`)

The TCP halves are embedded as opaque endpoint identifiers (`Nat`); the
AES-128/CFB8 cipher state is embedded as the 16-byte key it was created
from (`azalea_crypto::create_cipher` seeds both directions from the same
key), since the claims about the connection only move these values around.
The packet sets of the four protocol states are phantom type parameters
exactly as in the source. -/

inductive ClientboundHandshakePacket | mk deriving Repr, DecidableEq
inductive ServerboundHandshakePacket | mk deriving Repr, DecidableEq
inductive ClientboundStatusPacket | mk deriving Repr, DecidableEq
inductive ServerboundStatusPacket | mk deriving Repr, DecidableEq
inductive ClientboundLoginPacket | mk deriving Repr, DecidableEq
inductive ServerboundLoginPacket | mk deriving Repr, DecidableEq
inductive ClientboundGamePacket | mk deriving Repr, DecidableEq
inductive ServerboundGamePacket | mk deriving Repr, DecidableEq

/-- `ReadConnection` (connect.rs, lines 24-30). -/
structure ReadConnection (R : Type) where
  readStream : Nat
  buffer : List Nat
  compressionThreshold : Option Nat
  decCipher : Option (List Nat)
  deriving Repr, DecidableEq

/-- `WriteConnection` (connect.rs, lines 33-38). -/
structure WriteConnection (W : Type) where
  writeStream : Nat
  compressionThreshold : Option Nat
  encCipher : Option (List Nat)
  deriving Repr, DecidableEq

/-- `Connection` (connect.rs, lines 110-113). -/
structure Connection (R W : Type) where
  reader : ReadConnection R
  writer : WriteConnection W
  deriving Repr, DecidableEq

/-- `Connection::from` (connect.rs, lines 288-314): rebuild the typed view
over the same halves, copying the stream endpoints, the read buffer, both
compression thresholds and both cipher states verbatim.  (The source name
`from` is a reserved word in Lean.) -/
def Connection.from' {R1 W1 R2 W2 : Type} (c : Connection R1 W1) :
    Connection R2 W2 :=
  { reader :=
      { readStream := c.reader.readStream
        buffer := c.reader.buffer
        compressionThreshold := c.reader.compressionThreshold
        decCipher := c.reader.decCipher }
    writer :=
      { writeStream := c.writer.writeStream
        compressionThreshold := c.writer.compressionThreshold
        encCipher := c.writer.encCipher } }

/-- `Connection::login` (connect.rs, lines 204-207). -/
def Connection.login
    (c : Connection ClientboundHandshakePacket ServerboundHandshakePacket) :
    Connection ClientboundLoginPacket ServerboundLoginPacket :=
  Connection.from' c

/-- `Connection::status` (connect.rs, lines 209-212). -/
def Connection.status
    (c : Connection ClientboundHandshakePacket ServerboundHandshakePacket) :
    Connection ClientboundStatusPacket ServerboundStatusPacket :=
  Connection.from' c

/-- `Connection::game` (connect.rs, lines 237-240). -/
def Connection.game
    (c : Connection ClientboundLoginPacket ServerboundLoginPacket) :
    Connection ClientboundGamePacket ServerboundGamePacket :=
  Connection.from' c

/-- `Connection::set_compression_threshold` (connect.rs, lines 219-228),
available in the Login state: a non-negative threshold is installed on both
halves (`threshold as u32` is just `threshold` for `0 ≤ threshold < 2^31`,
embedded as `Int.toNat`); a negative threshold clears both. -/
def Connection.setCompressionThreshold
    (c : Connection ClientboundLoginPacket ServerboundLoginPacket)
    (threshold : Int) :
    Connection ClientboundLoginPacket ServerboundLoginPacket :=
  if 0 ≤ threshold then
    { c with
      reader := { c.reader with compressionThreshold := some threshold.toNat }
      writer := { c.writer with compressionThreshold := some threshold.toNat } }
  else
    { c with
      reader := { c.reader with compressionThreshold := none }
      writer := { c.writer with compressionThreshold := none } }

/-- `Connection::set_encryption_key` (connect.rs, lines 231-235): paired
cipher instances created from the same key are installed on the two
halves. -/
def Connection.setEncryptionKey
    (c : Connection ClientboundLoginPacket ServerboundLoginPacket)
    (key : List Nat) :
    Connection ClientboundLoginPacket ServerboundLoginPacket :=
  { c with
    reader := { c.reader with decCipher := some key }
    writer := { c.writer with encCipher := some key } }

/-! ## Concrete containers used by the theorems

`freshBS` is the container produced by `PalettedContainer::new(BlockStates)`;
`c1after` is its state after `set(0, 0, 0, 1)`; `c5after` its state after
`set(8, 8, 8, 1)`; `cH` is a Hashmap container as decoded by
`read_with_type` from `c3bytes`; `tG0` the Global container that `id_for`
turns `cH` into; `c10container` the container decoded from `c10bytes`. -/

def freshBS : PalettedContainer :=
  ⟨0, .singleValue 0, ⟨0, 4096, []⟩, .blockStates⟩

def zeros64 : List Nat := List.replicate 64 0

/-- The intermediate container built by `create_or_reuse_data(1)` after the
copy loop has pushed the single old value 0 into the Linear palette. -/
def linStart : PalettedContainer := ⟨1, .linear [0], ⟨1, 4096, zeros64⟩, .blockStates⟩

/-- The installed container after `on_resize(1, 1)` from `freshBS`, before
the triggering value is written into storage. -/
def cMid : PalettedContainer := ⟨1, .linear [0, 1], ⟨1, 4096, zeros64⟩, .blockStates⟩

def c1pal : Palette := .linear [0, 1]
def c1st : BitStorage := ⟨1, 4096, 1 :: List.replicate 63 0⟩

/-- The container after `set(0, 0, 0, 1)` on a fresh BlockStates container. -/
def c1after : PalettedContainer := ⟨1, c1pal, c1st, .blockStates⟩

/-- Storage words after `set(8, 8, 8, 1)`: cell 2184 (word 34, offset 8)
holds palette index 1. -/
def c5data : List Nat := List.replicate 34 0 ++ 256 :: List.replicate 29 0

/-- The container after `set(8, 8, 8, 1)` on a fresh BlockStates container. -/
def c5after : PalettedContainer := ⟨1, .linear [0, 1], ⟨1, 4096, c5data⟩, .blockStates⟩

/-- A Hashmap BlockStates container holding the single palette entry 0,
as decoded from `c3bytes`. -/
def cH : PalettedContainer :=
  ⟨8, .hashmap [0], ⟨8, 4096, List.replicate 512 0⟩, .blockStates⟩

/-- The Global container that `id_for` on `cH` resizes into. -/
def tG0 : PalettedContainer :=
  ⟨9, .global, ⟨9, 4096, List.replicate 586 0⟩, .blockStates⟩

/-- Wire bytes for `cH`: bits_per_entry 8; Hashmap palette of length 1
holding value 0; 512 data words (VarInt 512 = 0x80 0x04) of zero bytes. -/
def c3bytes : List Nat := 8 :: 1 :: 0 :: 128 :: 4 :: List.replicate 4096 0

/-- Wire bytes for a Biomes container: bits_per_entry 1; Linear palette of
length 1 holding value 7; one data word of all-one bytes, so every stored
cell holds palette index 1, one past the end of the palette. -/
def c10bytes : List Nat := [1, 1, 7, 1, 255, 255, 255, 255, 255, 255, 255, 255]

def c10container : PalettedContainer :=
  ⟨1, .linear [7], ⟨1, 64, [18446744073709551615]⟩, .biomes⟩

/-- The representation invariant stated by the spec (section 3):
`storage.size == container_type.size`,
`storage.bits_per_entry == container.bits_per_entry`, and the palette
variant agrees with `PaletteType::from_bits_and_type`. -/
def Inv (c : PalettedContainer) : Prop :=
  c.storage.size = c.containerType.size ∧
  c.storage.bitsPerEntry = c.bitsPerEntry ∧
  paletteTypeOf c.palette = PaletteType.fromBitsAndType c.bitsPerEntry c.containerType

/-- Sample containers for the witness theorems of C3: a Biomes Linear
container with room to push, a full one, and a Hashmap container. -/
def wL : PalettedContainer := ⟨1, .linear [5], ⟨1, 64, List.replicate 1 0⟩, .biomes⟩

def wLfull : PalettedContainer := ⟨1, .linear [5, 7], ⟨1, 64, List.replicate 1 0⟩, .biomes⟩

def wH : PalettedContainer := ⟨2, .hashmap [5], ⟨2, 64, List.replicate 2 0⟩, .biomes⟩

/-- A sample Login-state connection for the witness of C8. -/
def loginConn : Connection ClientboundLoginPacket ServerboundLoginPacket :=
  ⟨⟨0, [], none, none⟩, ⟨1, none, none⟩⟩

/-! ## Helper lemmas -/

theorem copyLoop_fixed (idf : PalettedContainer → Nat → Option (Nat × PalettedContainer))
    (pal : Palette) (st : BitStorage) (t : PalettedContainer) :
    ∀ l : List Nat,
      (∀ i ∈ l, (pal.valueFor (st.get i)).bind
          (fun v => (idf t v).map fun r =>
            { r.2 with storage := r.2.storage.set i r.1 }) = some t) →
      copyLoop idf pal st t l = some t := by
  intro l
  induction l with
  | nil => intro _; rfl
  | cons i rest ih =>
    intro h
    have hi := h i (List.mem_cons_self i rest)
    rw [Option.bind_eq_some] at hi
    obtain ⟨v, hv, hstep⟩ := hi
    rw [Option.map_eq_some'] at hstep
    obtain ⟨r, hr, ht⟩ := hstep
    show (pal.valueFor (st.get i)).bind _ = some t
    rw [hv, Option.some_bind, hr, Option.some_bind, ht]
    exact ih fun j hj => h j (List.mem_cons_of_mem i hj)

theorem getD_replicate_zero (n k : Nat) : (List.replicate n 0).getD k 0 = 0 := by
  induction n generalizing k with
  | zero => cases k <;> rfl
  | succ n ih =>
    cases k with
    | zero => rfl
    | succ k => simp [List.replicate]

theorem setl_replicate_zero (n k : Nat) :
    (List.replicate n (0 : Nat)).set k 0 = List.replicate n 0 := by
  induction n generalizing k with
  | zero => rfl
  | succ n ih =>
    cases k with
    | zero => simp [List.replicate]
    | succ k => simp [List.replicate, ih k]

theorem get_replicate_zero (b s n i : Nat) :
    BitStorage.get ⟨b, s, List.replicate n 0⟩ i = 0 := by
  unfold BitStorage.get
  split
  · rfl
  · simp [getD_replicate_zero, Nat.zero_shiftRight, Nat.zero_and]

theorem set_replicate_zero (b s n i : Nat) :
    BitStorage.set ⟨b, s, List.replicate n 0⟩ i 0 = ⟨b, s, List.replicate n 0⟩ := by
  unfold BitStorage.set
  split
  · rfl
  · simp [getD_replicate_zero, Nat.zero_and, Nat.zero_shiftLeft, setl_replicate_zero]

theorem range_split : List.range 4096 = 0 :: List.range' 1 4095 := by
  rw [List.range_eq_range']
  rfl

/-- Per-cell facts about `c1after`: every stored palette index is below the
palette length 2, looking it up returns it unchanged, and writing it back
is the identity.  Word 0 is 1 (cell 0 holds index 1) and all other words
are 0. -/
theorem c1_cells (i : Nat) :
    c1st.get i < 2 ∧
    Palette.valueFor c1pal (c1st.get i) = some (c1st.get i) ∧
    c1st.set i (c1st.get i) = c1st := by
  rcases Nat.eq_zero_or_pos i with h0 | hpos
  · subst h0
    refine ⟨by decide, by decide, by decide⟩
  by_cases h64 : i < 64
  · have hdiv : i / 64 = 0 := Nat.div_eq_of_lt h64
    have hmod : i % 64 = i := Nat.mod_eq_of_lt h64
    have hget : c1st.get i = 0 := by
      show (((1 :: List.replicate 63 0).getD (i / 64) 0) >>> ((i % 64) * 1)) &&& (2 ^ 1 - 1) = 0
      rw [hdiv, hmod, Nat.mul_one]
      show ((1 : Nat) >>> i) &&& 1 = 0
      rw [Nat.shiftRight_eq_div_pow]
      rw [Nat.div_eq_of_lt (Nat.one_lt_two_pow (by omega))]
      rfl
    have hx : (2 : Nat) ^ i % 2 = 0 := by
      obtain ⟨j, rfl⟩ : ∃ j, i = j + 1 := ⟨i - 1, by omega⟩
      rw [pow_succ]
      exact Nat.mul_mod_left _ _
    have hlt : (2 : Nat) ^ i < 2 ^ 64 := Nat.pow_lt_pow_right (by norm_num) h64
    have h264 : (2 : Nat) ^ 64 = 18446744073709551616 := by norm_num
    have hword : (1 : Nat) &&& (2 ^ 64 - 1 - (1 <<< ((i % 64) * 1))) = 1 := by
      rw [hmod, Nat.mul_one, Nat.one_shiftLeft, Nat.and_comm, Nat.and_one_is_mod]
      omega
    have hset : c1st.set i 0 = c1st := by
      show (⟨1, 4096, (1 :: List.replicate 63 0).set (i / 64)
        ((((1 :: List.replicate 63 0).getD (i / 64) 0) &&&
          (2 ^ 64 - 1 - ((2 ^ 1 - 1) <<< ((i % 64) * (1 : Nat))))) |||
          ((0 &&& (2 ^ 1 - 1)) <<< ((i % 64) * 1)))⟩ : BitStorage) = c1st
      rw [hdiv]
      show (⟨1, 4096, (1 :: List.replicate 63 0).set 0
        ((1 &&& (2 ^ 64 - 1 - ((1 : Nat) <<< ((i % 64) * 1)))) |||
          ((0 &&& 1) <<< ((i % 64) * 1)))⟩ : BitStorage) = c1st
      rw [hword]
      show (⟨1, 4096, (1 :: List.replicate 63 0).set 0
        (1 ||| 0 <<< ((i % 64) * 1))⟩ : BitStorage) = c1st
      rw [Nat.zero_shiftLeft, Nat.or_zero]
      rfl
    rw [hget]
    exact ⟨by omega, by decide, hset⟩
  · have hk : 1 ≤ i / 64 := (Nat.one_le_div_iff (by omega)).mpr (by omega)
    obtain ⟨j, hj⟩ : ∃ j, i / 64 = j + 1 := ⟨i / 64 - 1, by omega⟩
    have hgetD : (1 :: List.replicate 63 0).getD (i / 64) 0 = 0 := by
      rw [hj]
      show (List.replicate 63 0).getD j 0 = 0
      exact getD_replicate_zero 63 j
    have hget : c1st.get i = 0 := by
      show (((1 :: List.replicate 63 0).getD (i / 64) 0) >>> ((i % 64) * 1)) &&& (2 ^ 1 - 1) = 0
      rw [hgetD, Nat.zero_shiftRight, Nat.zero_and]
    have hset : c1st.set i 0 = c1st := by
      show (⟨1, 4096, (1 :: List.replicate 63 0).set (i / 64)
        ((((1 :: List.replicate 63 0).getD (i / 64) 0) &&&
          (2 ^ 64 - 1 - ((2 ^ 1 - 1) <<< ((i % 64) * (1 : Nat))))) |||
          ((0 &&& (2 ^ 1 - 1)) <<< ((i % 64) * 1)))⟩ : BitStorage) = c1st
      rw [hgetD, hj, Nat.zero_and]
      show (⟨1, 4096, (1 :: List.replicate 63 0).set (j + 1)
        ((0 : Nat) ||| (0 &&& 1) <<< ((i % 64) * 1))⟩ : BitStorage) = c1st
      rw [Nat.zero_and, Nat.zero_shiftLeft, Nat.or_zero]
      show (⟨1, 4096, 1 :: (List.replicate 63 0).set j 0⟩ : BitStorage) = c1st
      rw [setl_replicate_zero]
      rfl
    rw [hget]
    exact ⟨by omega, by decide, hset⟩

/-- `id_for` on `c1after` for the two present values is a pure lookup, at
any positive fuel. -/
theorem idFor_c1after_small (g v : Nat) (hv : v < 2) :
    idFor (g + 1) c1after v = some (v, c1after) := by
  rcases v with _ | _ | v
  · rfl
  · rfl
  · omega

/-- The copy loop of a reused-data resize of `c1after` is the identity. -/
theorem c1_copy_id (g : Nat) :
    copyLoop (idFor (g + 1)) c1pal c1st c1after (List.range 4096) = some c1after := by
  apply copyLoop_fixed
  intro i _
  obtain ⟨hlt, hval, hset⟩ := c1_cells i
  rw [hval, Option.some_bind, idFor_c1after_small g _ hlt, Option.map_some']
  show some ⟨1, c1pal, c1st.set i (c1st.get i), .blockStates⟩ = some c1after
  rw [hset]
  rfl

/-- The copy loop of the first resize of a fresh container: the first cell
pushes the old single value 0 into the Linear palette; every later cell is
a zero write into zeroed storage. -/
theorem copy_fresh :
    copyLoop (idFor 4) (Palette.singleValue 0) (⟨0, 4096, []⟩ : BitStorage)
      (createOrReuseData freshBS 1) (List.range 4096) = some linStart := by
  have h0 : createOrReuseData freshBS 1
      = ⟨1, .linear [], ⟨1, 4096, zeros64⟩, .blockStates⟩ := rfl
  rw [h0, range_split]
  show (Option.some (0 : Nat)).bind _ = some linStart
  rw [Option.some_bind]
  have h1 : idFor 4 (⟨1, .linear [], ⟨1, 4096, zeros64⟩, .blockStates⟩ : PalettedContainer) 0
      = some (0, linStart) := by decide
  rw [h1, Option.some_bind]
  have h2 : ({ linStart with storage := linStart.storage.set 0 0 } : PalettedContainer)
      = linStart := by decide
  rw [h2]
  apply copyLoop_fixed
  intro i _
  show (Option.some (0 : Nat)).bind _ = some linStart
  rw [Option.some_bind]
  have h3 : idFor 4 linStart 0 = some (0, linStart) := by decide
  rw [h3, Option.map_some']
  show some ⟨1, .linear [0], BitStorage.set ⟨1, 4096, List.replicate 64 0⟩ i 0, .blockStates⟩
      = some linStart
  rw [set_replicate_zero]
  rfl

theorem idFor_fresh_one : idFor 5 freshBS 1 = some (1, cMid) := by
  have h : idFor 5 freshBS 1
      = (copyLoop (idFor 4) (Palette.singleValue 0) (⟨0, 4096, []⟩ : BitStorage)
          (createOrReuseData freshBS 1) (List.range 4096)).bind fun d => idFor 4 d 1 := rfl
  rw [h, copy_fresh, Option.some_bind]
  decide

theorem c1after_reachable : PalettedContainer.set 5 freshBS 0 0 0 1 = some c1after := by
  unfold PalettedContainer.set
  rw [idFor_fresh_one, Option.map_some']
  decide

theorem c5_set : PalettedContainer.set 5 freshBS 8 8 8 1 = some c5after := by
  unfold PalettedContainer.set
  rw [idFor_fresh_one, Option.map_some']
  decide

theorem c1_idFor_none : ∀ fuel, idFor fuel c1after 2 = none := by
  intro fuel
  induction fuel with
  | zero => rfl
  | succ n ih =>
    have h1 : idFor (n + 1) c1after 2
        = (copyLoop (idFor n) c1pal c1st (createOrReuseData c1after 2)
            (List.range 4096)).bind fun d => idFor n d 2 := rfl
    have h2 : createOrReuseData c1after 2 = c1after := rfl
    rw [h1, h2]
    cases n with
    | zero => rfl
    | succ g =>
      rw [c1_copy_id g, Option.some_bind]
      exact ih

theorem c1_set_diverges (fuel : Nat) :
    PalettedContainer.set fuel c1after 0 0 0 2 = none := by
  unfold PalettedContainer.set
  rw [c1_idFor_none fuel]
  rfl

/-- The copy loop of the resize of `cH` into the Global container: every
cell of the source is palette entry 0 and every write into the zeroed
9-bit storage is a zero write. -/
theorem cH_copy :
    copyLoop (idFor 4) (Palette.hashmap [0]) (⟨8, 4096, List.replicate 512 0⟩ : BitStorage)
      tG0 (List.range 4096) = some tG0 := by
  apply copyLoop_fixed
  intro i _
  have hv : Palette.valueFor (Palette.hashmap [0])
      (BitStorage.get ⟨8, 4096, List.replicate 512 0⟩ i) = some 0 := by
    rw [get_replicate_zero]
    rfl
  rw [hv, Option.some_bind]
  have h3 : idFor 4 tG0 0 = some (0, tG0) := rfl
  rw [h3, Option.map_some']
  show some ⟨9, .global, BitStorage.set ⟨9, 4096, List.replicate 586 0⟩ i 0, .blockStates⟩
      = some tG0
  rw [set_replicate_zero]
  rfl

theorem idFor_cH : idFor 5 cH 1 = some (1, tG0) := by
  have h : idFor 5 cH 1
      = (copyLoop (idFor 4) (Palette.hashmap [0]) (⟨8, 4096, List.replicate 512 0⟩ : BitStorage)
          (createOrReuseData cH 9) (List.range 4096)).bind fun d => idFor 4 d 1 := rfl
  have h2 : createOrReuseData cH 9 = tG0 := rfl
  rw [h, h2, cH_copy, Option.some_bind]
  rfl

theorem c3_reach : readWithType c3bytes .blockStates = some (cH, []) := by decide

theorem BitStorage.set_size (st : BitStorage) (i v : Nat) :
    (st.set i v).size = st.size := by
  unfold BitStorage.set
  split <;> rfl

theorem BitStorage.set_bits (st : BitStorage) (i v : Nat) :
    (st.set i v).bitsPerEntry = st.bitsPerEntry := by
  unfold BitStorage.set
  split <;> rfl

theorem paletteTypeOf_intoEmptyPalette (pt : PaletteType) :
    paletteTypeOf pt.intoEmptyPalette = pt := by
  cases pt <;> rfl

theorem BitStorage.new_fields (b s : Nat) (d? : Option (List Nat)) (st : BitStorage)
    (h : BitStorage.new b s d? = some st) :
    st.bitsPerEntry = b ∧ st.size = s := by
  unfold BitStorage.new at h
  by_cases hb : b = 0
  · rw [if_pos hb] at h
    cases d? with
    | none =>
      dsimp only at h
      cases h
      exact ⟨hb.symm, rfl⟩
    | some d =>
      dsimp only at h
      by_cases hd : d = []
      · rw [if_pos hd] at h
        cases h
        exact ⟨hb.symm, rfl⟩
      · rw [if_neg hd] at h
        cases h
  · rw [if_neg hb] at h
    cases d? with
    | none =>
      dsimp only at h
      cases h
      exact ⟨rfl, rfl⟩
    | some d =>
      dsimp only at h
      by_cases hd : d.length = wordsNeeded b s
      · rw [if_pos hd] at h
        cases h
        exact ⟨rfl, rfl⟩
      · rw [if_neg hd] at h
        cases h

theorem inv_createOrReuseData (c : PalettedContainer) (bpe : Nat) (hc : Inv c) :
    Inv (createOrReuseData c bpe) := by
  unfold createOrReuseData
  dsimp only
  split
  · exact hc
  · have hsome : BitStorage.new bpe c.containerType.size none
        = some (if bpe = 0 then ⟨0, c.containerType.size, []⟩
          else ⟨bpe, c.containerType.size,
            List.replicate (wordsNeeded bpe c.containerType.size) 0⟩) := by
      unfold BitStorage.new
      by_cases hb : bpe = 0 <;> simp [hb]
    refine ⟨?_, ?_, ?_⟩
    · show ((BitStorage.new bpe c.containerType.size none).getD _).size = c.containerType.size
      rw [hsome]
      by_cases hb : bpe = 0 <;> simp [hb]
    · show ((BitStorage.new bpe c.containerType.size none).getD _).bitsPerEntry = bpe
      rw [hsome]
      by_cases hb : bpe = 0 <;> simp [hb]
    · exact paletteTypeOf_intoEmptyPalette _

theorem copyLoop_inv (f : Nat)
    (hf : ∀ c v r, Inv c → idFor f c v = some r → Inv r.2)
    (pal : Palette) (st : BitStorage) :
    ∀ (l : List Nat) (t : PalettedContainer), Inv t →
      ∀ t', copyLoop (idFor f) pal st t l = some t' → Inv t' := by
  intro l
  induction l with
  | nil =>
    intro t ht t' h
    have : t = t' := by simpa [copyLoop] using h
    subst this
    exact ht
  | cons i rest ih =>
    intro t ht t' h
    simp only [copyLoop] at h
    rw [Option.bind_eq_some] at h
    obtain ⟨v, _, h2⟩ := h
    rw [Option.bind_eq_some] at h2
    obtain ⟨r, hr, h3⟩ := h2
    have hri : Inv r.2 := hf t v r ht hr
    refine ih _ ?_ t' h3
    obtain ⟨i1, i2, i3⟩ := hri
    exact ⟨by simpa [BitStorage.set_size] using i1,
      by simpa [BitStorage.set_bits] using i2, i3⟩

theorem onResizeF_inv (f : Nat)
    (hf : ∀ c v r, Inv c → idFor f c v = some r → Inv r.2)
    (c : PalettedContainer) (bpe v : Nat) (r : Nat × PalettedContainer)
    (hc : Inv c) (h : onResizeF (idFor f) c bpe v = some r) : Inv r.2 := by
  unfold onResizeF at h
  rw [Option.bind_eq_some] at h
  obtain ⟨d, hd, h2⟩ := h
  exact hf d v r (copyLoop_inv f hf c.palette c.storage _ _
    (inv_createOrReuseData c bpe hc) d hd) h2

/-- Branch equation of `id_for` on a SingleValue palette. -/
theorem idFor_succ_single (f bpe pv v : Nat) (st : BitStorage)
    (ct : PalettedContainerType) :
    idFor (f + 1) ⟨bpe, .singleValue pv, st, ct⟩ v =
      if pv ≠ v then onResizeF (idFor f) ⟨bpe, .singleValue pv, st, ct⟩ 1 v
      else some (0, ⟨bpe, .singleValue pv, st, ct⟩) := rfl

/-- Branch equation of `id_for` on a Linear palette. -/
theorem idFor_succ_linear (f bpe v : Nat) (l : List Nat) (st : BitStorage)
    (ct : PalettedContainerType) :
    idFor (f + 1) ⟨bpe, .linear l, st, ct⟩ v =
      match List.findIdx? (fun w => w == v) l with
      | some index => some (index, ⟨bpe, .linear l, st, ct⟩)
      | none =>
        if 2 ^ bpe > l.length then
          some (l.length, ⟨bpe, .linear (l ++ [v]), st, ct⟩)
        else onResizeF (idFor f) ⟨bpe, .linear l, st, ct⟩ (bpe + 1) v := rfl

/-- Branch equation of `id_for` on a Hashmap palette. -/
theorem idFor_succ_hashmap (f bpe v : Nat) (l : List Nat) (st : BitStorage)
    (ct : PalettedContainerType) :
    idFor (f + 1) ⟨bpe, .hashmap l, st, ct⟩ v =
      match List.findIdx? (fun w => w == v) l with
      | some index => some (index, ⟨bpe, .hashmap l, st, ct⟩)
      | none => onResizeF (idFor f) ⟨bpe, .hashmap l, st, ct⟩ (bpe + 1) v := rfl

/-- Branch equation of `id_for` on the Global palette. -/
theorem idFor_succ_global (f bpe v : Nat) (st : BitStorage)
    (ct : PalettedContainerType) :
    idFor (f + 1) ⟨bpe, .global, st, ct⟩ v = some (v, ⟨bpe, .global, st, ct⟩) := rfl

theorem idFor_inv : ∀ (fuel : Nat) (c : PalettedContainer) (v : Nat)
    (r : Nat × PalettedContainer), Inv c → idFor fuel c v = some r → Inv r.2 := by
  intro fuel
  induction fuel with
  | zero =>
    intro c v r _ h
    exact absurd h (by simp [idFor])
  | succ f ih =>
    intro c v r hc h
    obtain ⟨bpe, pal, st, ct⟩ := c
    cases pal with
    | singleValue pv =>
      rw [idFor_succ_single] at h
      split at h
      · exact onResizeF_inv f ih _ 1 v r hc h
      · cases h
        exact hc
    | linear l =>
      rw [idFor_succ_linear] at h
      split at h
      · cases h
        exact hc
      · split at h
        · cases h
          obtain ⟨i1, i2, i3⟩ := hc
          exact ⟨i1, i2, i3⟩
        · exact onResizeF_inv f ih _ (bpe + 1) v r hc h
    | hashmap l =>
      rw [idFor_succ_hashmap] at h
      split at h
      · cases h
        exact hc
      · exact onResizeF_inv f ih _ (bpe + 1) v r hc h
    | global =>
      rw [idFor_succ_global] at h
      cases h
      exact hc

theorem palette_read_typeOf (pt : PaletteType) (bs rest : List Nat) (pal : Palette)
    (h : pt.read bs = some (pal, rest)) : paletteTypeOf pal = pt := by
  cases pt <;> simp only [PaletteType.read, Option.map_eq_some'] at h
  · obtain ⟨p, _, hp⟩ := h
    cases hp
    rfl
  · obtain ⟨p, _, hp⟩ := h
    cases hp
    rfl
  · obtain ⟨p, _, hp⟩ := h
    cases hp
    rfl
  · cases h
    rfl

theorem new_inv (ct : PalettedContainerType) (c : PalettedContainer)
    (h : PalettedContainer.new ct = some c) : Inv c := by
  unfold PalettedContainer.new at h
  rw [Option.map_eq_some'] at h
  obtain ⟨st, hst, hc⟩ := h
  have hf := BitStorage.new_fields 0 ct.size (some []) st hst
  cases hc
  exact ⟨hf.2, hf.1, by cases ct <;> rfl⟩

theorem readWithType_inv (bs : List Nat) (ct : PalettedContainerType)
    (c : PalettedContainer) (rest : List Nat)
    (h : readWithType bs ct = some (c, rest)) : Inv c := by
  unfold readWithType at h
  rw [Option.bind_eq_some] at h
  obtain ⟨b, _, h⟩ := h
  rw [Option.bind_eq_some] at h
  obtain ⟨p, hp, h⟩ := h
  rw [Option.bind_eq_some] at h
  obtain ⟨d, _, h⟩ := h
  rw [Option.map_eq_some'] at h
  obtain ⟨st, hst, hc⟩ := h
  have hf := BitStorage.new_fields b.1 ct.size (some d.1) st hst
  cases hc
  exact ⟨hf.2, hf.1, palette_read_typeOf _ _ _ _ hp⟩

theorem set_inv (fuel : Nat) (c : PalettedContainer) (x y z v : Nat)
    (c' : PalettedContainer) (hc : Inv c)
    (h : PalettedContainer.set fuel c x y z v = some c') : Inv c' := by
  unfold PalettedContainer.set at h
  rw [Option.map_eq_some'] at h
  obtain ⟨r, hr, hc'⟩ := h
  have hi := idFor_inv fuel c v r hc hr
  cases hc'
  obtain ⟨i1, i2, i3⟩ := hi
  exact ⟨by simpa [BitStorage.set_size] using i1,
    by simpa [BitStorage.set_bits] using i2, i3⟩

theorem getAndSet_inv (fuel : Nat) (c : PalettedContainer) (x y z v : Nat)
    (p : Nat × PalettedContainer) (hc : Inv c)
    (h : PalettedContainer.getAndSet fuel c x y z v = some p) : Inv p.2 := by
  unfold PalettedContainer.getAndSet at h
  rw [Option.map_eq_some'] at h
  obtain ⟨r, hr, hp⟩ := h
  have hi := idFor_inv fuel c v r hc hr
  cases hp
  obtain ⟨i1, i2, i3⟩ := hi
  exact ⟨by simpa [BitStorage.getAndSet, BitStorage.set_size] using i1,
    by simpa [BitStorage.getAndSet, BitStorage.set_bits] using i2, i3⟩

theorem new_none_bits (bpe s : Nat) :
    ((BitStorage.new bpe s none).getD ⟨bpe, s, []⟩).bitsPerEntry = bpe := by
  unfold BitStorage.new
  by_cases hb : bpe = 0 <;> simp [hb]

theorem new_none_size (bpe s : Nat) :
    ((BitStorage.new bpe s none).getD ⟨bpe, s, []⟩).size = s := by
  unfold BitStorage.new
  by_cases hb : bpe = 0 <;> simp [hb]

/-! ## Claim theorems -/

/-- C1 (code bug): on a fresh BlockStates container, `set(0,0,0,1)` succeeds
and `get` then returns 1, but the next `set(0,0,0,2)` never terminates, for
any fuel: `id_for(2)` overflows the full 2-entry Linear palette and calls
`on_resize(2)`, whose `create_or_reuse_data` sees that the palette variant
for 2 bits is still Linear and returns the container unchanged — with
`bits_per_entry` still 1 — so `id_for(2)` repeats forever instead of
handing back a palette id.  The spec's property "get returns the last
value written at that position, regardless of how many resizes occurred"
therefore fails on the third distinct value ever written. -/
theorem c1_resize_divergence :
    PalettedContainer.set 5 freshBS 0 0 0 1 = some c1after ∧
    PalettedContainer.get c1after 0 0 0 = some 1 ∧
    ∀ fuel, PalettedContainer.set fuel c1after 0 0 0 2 = none :=
  ⟨c1after_reachable, by decide, c1_set_diverges⟩

/-- C2 (counterexample): resize does NOT always allocate fresh storage of
the requested width.  On the reachable container `c1after` (Linear, 1 bit,
palette full), the resize step to 2 bits returns the container unchanged:
its `bits_per_entry` is still 1, its storage is still 1 bit wide, and its
palette is the old two-entry list rather than a fresh empty Linear
palette. -/
theorem c2_counterexample :
    PalettedContainer.set 5 freshBS 0 0 0 1 = some c1after ∧
    createOrReuseData c1after 2 = c1after ∧
    (createOrReuseData c1after 2).bitsPerEntry ≠ 2 ∧
    (createOrReuseData c1after 2).storage.bitsPerEntry ≠ 2 ∧
    (createOrReuseData c1after 2).palette ≠ PaletteType.linear.intoEmptyPalette :=
  ⟨c1after_reachable, by decide, by decide, by decide, by decide⟩

/-- C2 (amended): when the palette variant selected for the new width
differs from the current one, `create_or_reuse_data` builds fresh zeroed
storage of the requested width and a fresh empty palette of the selected
variant over the same container type; when the variant is unchanged it
returns the container unchanged, ignoring the requested width.
`on_resize` then re-translates every cell of the old storage through
`id_for` into the new data, installs it, and computes the id of the
triggering value in the installed container. -/
theorem c2_amended :
    (∀ (c : PalettedContainer) (bpe : Nat),
      PaletteType.fromBitsAndType bpe c.containerType = paletteTypeOf c.palette →
      createOrReuseData c bpe = c) ∧
    (∀ (c : PalettedContainer) (bpe : Nat),
      PaletteType.fromBitsAndType bpe c.containerType ≠ paletteTypeOf c.palette →
      (createOrReuseData c bpe).bitsPerEntry = bpe ∧
      (createOrReuseData c bpe).palette
        = (PaletteType.fromBitsAndType bpe c.containerType).intoEmptyPalette ∧
      (createOrReuseData c bpe).storage.bitsPerEntry = bpe ∧
      (createOrReuseData c bpe).storage.size = c.containerType.size ∧
      (createOrReuseData c bpe).containerType = c.containerType) ∧
    (∀ (fuel : Nat) (c : PalettedContainer) (bpe v : Nat),
      onResize fuel c bpe v
        = (copyFrom fuel (createOrReuseData c bpe) c.palette c.storage).bind
            fun d => idFor fuel d v) := by
  refine ⟨?_, ?_, ?_⟩
  · intro c bpe h
    unfold createOrReuseData
    dsimp only
    rw [if_pos h]
  · intro c bpe h
    unfold createOrReuseData
    dsimp only
    rw [if_neg h]
    exact ⟨rfl, rfl, new_none_bits _ _, new_none_size _ _, rfl⟩
  · intro fuel c bpe v
    rfl

/-- Witness for C2: the reuse branch fires on `c1after` with requested
width 2 (the palette variant stays Linear), and the fresh branch fires on
`freshBS` with width 1 (SingleValue to Linear). -/
theorem c2_amended_witness :
    createOrReuseData c1after 2 = c1after ∧
    (createOrReuseData freshBS 1).bitsPerEntry = 1 ∧
    (createOrReuseData freshBS 1).palette = Palette.linear [] :=
  ⟨c2_amended.1 c1after 2 (by decide),
   (c2_amended.2.1 freshBS 1 (by decide)).1,
   ((c2_amended.2.1 freshBS 1 (by decide)).2.1).trans (by decide)⟩

/-- C3 (counterexample): on the Hashmap container `cH` (8 bits, palette
`[0]`, reachable from the wire bytes `c3bytes`), `id_for` of the absent
value 1 does not append 1 to the Hashmap palette and return its index —
it resizes to 9 bits, which selects the Global palette. -/
theorem c3_counterexample :
    readWithType c3bytes .blockStates = some (cH, []) ∧
    idFor 5 cH 1 = some (1, tG0) ∧
    paletteTypeOf tG0.palette = PaletteType.global ∧
    ¬ idFor 5 cH 1 = some (1, { cH with palette := Palette.hashmap [0, 1] }) := by
  refine ⟨c3_reach, idFor_cH, rfl, ?_⟩
  rw [idFor_cH]
  decide

/-- C3 (amended): `id_for` on a Linear palette returns the existing
position of a present value; an absent value is appended and its new index
returned while `palette.len < 2^bits_per_entry`, and triggers
`on_resize(bits_per_entry + 1)` when the palette is full.  On a Hashmap
palette a present value's position is returned, but an absent value always
triggers `on_resize(bits_per_entry + 1)` — it is never appended. -/
theorem c3_amended :
    (∀ (f bpe v i : Nat) (l : List Nat) (st : BitStorage) (ct : PalettedContainerType),
      List.findIdx? (fun w => w == v) l = some i →
      idFor (f + 1) ⟨bpe, .linear l, st, ct⟩ v = some (i, ⟨bpe, .linear l, st, ct⟩)) ∧
    (∀ (f bpe v : Nat) (l : List Nat) (st : BitStorage) (ct : PalettedContainerType),
      List.findIdx? (fun w => w == v) l = none →
      l.length < 2 ^ bpe →
      idFor (f + 1) ⟨bpe, .linear l, st, ct⟩ v
        = some (l.length, ⟨bpe, .linear (l ++ [v]), st, ct⟩)) ∧
    (∀ (f bpe v : Nat) (l : List Nat) (st : BitStorage) (ct : PalettedContainerType),
      List.findIdx? (fun w => w == v) l = none →
      ¬ l.length < 2 ^ bpe →
      idFor (f + 1) ⟨bpe, .linear l, st, ct⟩ v
        = onResize f ⟨bpe, .linear l, st, ct⟩ (bpe + 1) v) ∧
    (∀ (f bpe v i : Nat) (l : List Nat) (st : BitStorage) (ct : PalettedContainerType),
      List.findIdx? (fun w => w == v) l = some i →
      idFor (f + 1) ⟨bpe, .hashmap l, st, ct⟩ v = some (i, ⟨bpe, .hashmap l, st, ct⟩)) ∧
    (∀ (f bpe v : Nat) (l : List Nat) (st : BitStorage) (ct : PalettedContainerType),
      List.findIdx? (fun w => w == v) l = none →
      idFor (f + 1) ⟨bpe, .hashmap l, st, ct⟩ v
        = onResize f ⟨bpe, .hashmap l, st, ct⟩ (bpe + 1) v) := by
  refine ⟨?_, ?_, ?_, ?_, ?_⟩
  · intro f bpe v i l st ct hfind
    rw [idFor_succ_linear, hfind]
  · intro f bpe v l st ct hfind hlen
    rw [idFor_succ_linear, hfind]
    show (if 2 ^ bpe > l.length then _ else _) = _
    rw [if_pos hlen]
  · intro f bpe v l st ct hfind hlen
    rw [idFor_succ_linear, hfind]
    show (if 2 ^ bpe > l.length then _ else _) = _
    rw [if_neg hlen]
    rfl
  · intro f bpe v i l st ct hfind
    rw [idFor_succ_hashmap, hfind]
  · intro f bpe v l st ct hfind
    rw [idFor_succ_hashmap, hfind]
    rfl

/-- Witness for C3 (amended), on small Biomes containers: a Linear lookup
hit, a Linear push, a Linear full-palette resize, a Hashmap lookup hit,
and a Hashmap resize. -/
theorem c3_amended_witness :
    idFor 3 ⟨1, .linear [5], ⟨1, 64, List.replicate 1 0⟩, .biomes⟩ 5
      = some (0, ⟨1, .linear [5], ⟨1, 64, List.replicate 1 0⟩, .biomes⟩) ∧
    idFor 3 ⟨1, .linear [5], ⟨1, 64, List.replicate 1 0⟩, .biomes⟩ 7
      = some (1, ⟨1, .linear [5, 7], ⟨1, 64, List.replicate 1 0⟩, .biomes⟩) ∧
    idFor 3 ⟨1, .linear [5, 7], ⟨1, 64, List.replicate 1 0⟩, .biomes⟩ 9
      = onResize 2 ⟨1, .linear [5, 7], ⟨1, 64, List.replicate 1 0⟩, .biomes⟩ 2 9 ∧
    idFor 3 ⟨2, .hashmap [5], ⟨2, 64, List.replicate 2 0⟩, .biomes⟩ 5
      = some (0, ⟨2, .hashmap [5], ⟨2, 64, List.replicate 2 0⟩, .biomes⟩) ∧
    idFor 3 ⟨2, .hashmap [5], ⟨2, 64, List.replicate 2 0⟩, .biomes⟩ 9
      = onResize 2 ⟨2, .hashmap [5], ⟨2, 64, List.replicate 2 0⟩, .biomes⟩ 3 9 :=
  ⟨c3_amended.1 2 1 5 0 [5] ⟨1, 64, List.replicate 1 0⟩ .biomes (by decide),
   c3_amended.2.1 2 1 7 [5] ⟨1, 64, List.replicate 1 0⟩ .biomes (by decide) (by decide),
   c3_amended.2.2.1 2 1 9 [5, 7] ⟨1, 64, List.replicate 1 0⟩ .biomes (by decide) (by decide),
   c3_amended.2.2.2.1 2 2 5 0 [5] ⟨2, 64, List.replicate 2 0⟩ .biomes (by decide),
   c3_amended.2.2.2.2 2 2 9 [5] ⟨2, 64, List.replicate 2 0⟩ .biomes (by decide)⟩

/-- C4: the representation invariant — `storage.size = container_type.size`,
`storage.bits_per_entry = container.bits_per_entry`, and the palette
variant agreeing with `PaletteType::from_bits_and_type` — holds after
creation and wire reading, and is preserved by `id_for` (hence by every
resize it performs), `set` and `get_and_set` whenever they terminate.
`get` does not mutate the container. -/
theorem c4_palette_type_invariant :
    (∀ (ct : PalettedContainerType) (c : PalettedContainer),
      PalettedContainer.new ct = some c → Inv c) ∧
    (∀ (bs : List Nat) (ct : PalettedContainerType) (c : PalettedContainer)
      (rest : List Nat), readWithType bs ct = some (c, rest) → Inv c) ∧
    (∀ (fuel : Nat) (c : PalettedContainer) (v : Nat) (r : Nat × PalettedContainer),
      Inv c → idFor fuel c v = some r → Inv r.2) ∧
    (∀ (fuel : Nat) (c : PalettedContainer) (x y z v : Nat) (c' : PalettedContainer),
      Inv c → PalettedContainer.set fuel c x y z v = some c' → Inv c') ∧
    (∀ (fuel : Nat) (c : PalettedContainer) (x y z v : Nat) (p : Nat × PalettedContainer),
      Inv c → PalettedContainer.getAndSet fuel c x y z v = some p → Inv p.2) :=
  ⟨new_inv, readWithType_inv, idFor_inv, set_inv, getAndSet_inv⟩

/-- Witness for C4: the invariant holds for the container reached by
`set(0,0,0,1)` from a fresh container, and for the Hashmap container
decoded from `c3bytes`. -/
theorem c4_invariant_witness : Inv c1after ∧ Inv cH :=
  ⟨c4_palette_type_invariant.2.2.2.1 5 freshBS 0 0 0 1 c1after
      (by unfold Inv; decide) c1after_reachable,
   c4_palette_type_invariant.2.1 c3bytes .blockStates cH [] c3_reach⟩

/-- C5: a fresh BlockStates container has `bits_per_entry = 0`,
`get(8,8,8) = 0` and a SingleValue palette; after `set(8,8,8,1)` it has
`get(8,8,8) = 1` and a Linear palette. -/
theorem c5_palette_promotion :
    PalettedContainer.new .blockStates = some freshBS ∧
    freshBS.bitsPerEntry = 0 ∧
    PalettedContainer.get freshBS 8 8 8 = some 0 ∧
    paletteTypeOf freshBS.palette = PaletteType.singleValue ∧
    PalettedContainer.set 5 freshBS 8 8 8 1 = some c5after ∧
    PalettedContainer.get c5after 8 8 8 = some 1 ∧
    paletteTypeOf c5after.palette = PaletteType.linear :=
  ⟨by decide, rfl, by decide, rfl, c5_set, by decide, rfl⟩

/-- C6 (counterexample): decoding the byte 0x07 as a ChatType does not
fail — it succeeds and yields `Chat`, exactly as the repository's own
`test_chat_type` asserts. -/
theorem c6_counterexample :
    ChatType.readFrom [7] ≠ none ∧
    ChatType.readFrom [7] = some (ChatType.chat, []) :=
  ⟨by decide, by decide⟩

/-- C6 (amended): decoding 0x06 yields `EmoteCommand`; decoding the
out-of-range discriminant 0x07 also succeeds and yields `Chat`, the first
variant, instead of a decode error. -/
theorem c6_amended :
    ChatType.readFrom [6] = some (ChatType.emoteCommand, []) ∧
    ChatType.readFrom [7] = some (ChatType.chat, []) :=
  ⟨by decide, by decide⟩

/-- C7: each state transition (handshake to login, handshake to status,
login to game) returns a connection over the same stream endpoints in
which the pending read buffer, the compression thresholds of both halves
and the cipher states of both halves are unchanged. -/
theorem c7_transitions_preserve :
    (∀ (c : Connection ClientboundHandshakePacket ServerboundHandshakePacket),
      c.login.reader.readStream = c.reader.readStream ∧
      c.login.reader.buffer = c.reader.buffer ∧
      c.login.reader.compressionThreshold = c.reader.compressionThreshold ∧
      c.login.reader.decCipher = c.reader.decCipher ∧
      c.login.writer.writeStream = c.writer.writeStream ∧
      c.login.writer.compressionThreshold = c.writer.compressionThreshold ∧
      c.login.writer.encCipher = c.writer.encCipher) ∧
    (∀ (c : Connection ClientboundHandshakePacket ServerboundHandshakePacket),
      c.status.reader.readStream = c.reader.readStream ∧
      c.status.reader.buffer = c.reader.buffer ∧
      c.status.reader.compressionThreshold = c.reader.compressionThreshold ∧
      c.status.reader.decCipher = c.reader.decCipher ∧
      c.status.writer.writeStream = c.writer.writeStream ∧
      c.status.writer.compressionThreshold = c.writer.compressionThreshold ∧
      c.status.writer.encCipher = c.writer.encCipher) ∧
    (∀ (c : Connection ClientboundLoginPacket ServerboundLoginPacket),
      c.game.reader.readStream = c.reader.readStream ∧
      c.game.reader.buffer = c.reader.buffer ∧
      c.game.reader.compressionThreshold = c.reader.compressionThreshold ∧
      c.game.reader.decCipher = c.reader.decCipher ∧
      c.game.writer.writeStream = c.writer.writeStream ∧
      c.game.writer.compressionThreshold = c.writer.compressionThreshold ∧
      c.game.writer.encCipher = c.writer.encCipher) :=
  ⟨fun _ => ⟨rfl, rfl, rfl, rfl, rfl, rfl, rfl⟩,
   fun _ => ⟨rfl, rfl, rfl, rfl, rfl, rfl, rfl⟩,
   fun _ => ⟨rfl, rfl, rfl, rfl, rfl, rfl, rfl⟩⟩

/-- C8: in the Login state, `set_compression_threshold(t)` installs the
threshold on both halves when `t` is non-negative and clears it on both
halves when `t` is negative. -/
theorem c8_set_compression_threshold :
    ∀ (c : Connection ClientboundLoginPacket ServerboundLoginPacket) (t : Int),
      (0 ≤ t →
        (c.setCompressionThreshold t).reader.compressionThreshold = some t.toNat ∧
        (c.setCompressionThreshold t).writer.compressionThreshold = some t.toNat) ∧
      (t < 0 →
        (c.setCompressionThreshold t).reader.compressionThreshold = none ∧
        (c.setCompressionThreshold t).writer.compressionThreshold = none) := by
  intro c t
  constructor
  · intro h
    unfold Connection.setCompressionThreshold
    rw [if_pos h]
    exact ⟨rfl, rfl⟩
  · intro h
    unfold Connection.setCompressionThreshold
    rw [if_neg (by omega)]
    exact ⟨rfl, rfl⟩

/-- Witness for C8 at thresholds 256 and -1. -/
theorem c8_threshold_witness :
    ((loginConn.setCompressionThreshold 256).reader.compressionThreshold = some 256 ∧
     (loginConn.setCompressionThreshold 256).writer.compressionThreshold = some 256) ∧
    ((loginConn.setCompressionThreshold (-1)).reader.compressionThreshold = none ∧
     (loginConn.setCompressionThreshold (-1)).writer.compressionThreshold = none) :=
  ⟨(c8_set_compression_threshold loginConn 256).1 (by decide),
   (c8_set_compression_threshold loginConn (-1)).2 (by decide)⟩

/-- C9: for every container, coordinates and value (and fuel), `set` and
`get_and_set` produce identical final containers; `get_and_set`
additionally returns the id stored at the cell just before the write, in
the container as it stands after `id_for` (including any resize). -/
theorem c9_set_getAndSet_equiv (fuel : Nat) (c : PalettedContainer) (x y z v : Nat) :
    (PalettedContainer.getAndSet fuel c x y z v).map Prod.snd
      = PalettedContainer.set fuel c x y z v ∧
    (PalettedContainer.getAndSet fuel c x y z v).map Prod.fst
      = (idFor fuel c v).map fun r => r.2.storage.get (r.2.getIndex x y z) := by
  cases h : idFor fuel c v with
  | none =>
    simp [PalettedContainer.getAndSet, PalettedContainer.set, h]
  | some r =>
    simp [PalettedContainer.getAndSet, PalettedContainer.set, h, BitStorage.getAndSet]

/-- C10: `value_for` on Linear and Hashmap palettes is a raw list index
(`none` models the Rust panic on an out-of-range id), and `read_with_type`
never validates stored indices against the palette length: the bytes
`c10bytes` decode successfully into a Biomes container whose every cell
holds palette index 1 over a one-entry palette, so `get(0,0,0)` panics
instead of returning a value. -/
theorem c10_value_for_panics :
    (∀ (l : List Nat) (id : Nat), Palette.valueFor (Palette.linear l) id = l.get? id) ∧
    (∀ (l : List Nat) (id : Nat), Palette.valueFor (Palette.hashmap l) id = l.get? id) ∧
    Palette.valueFor (Palette.linear [7]) 1 = none ∧
    readWithType c10bytes .biomes = some (c10container, []) ∧
    c10container.storage.get (c10container.getIndex 0 0 0) = 1 ∧
    PalettedContainer.get c10container 0 0 0 = none :=
  ⟨fun _ _ => rfl, fun _ _ => rfl, by decide, by decide, by decide, by decide⟩

end Azalea
